import Mathlib

/-!
Verification of the `TransactionScope` unit-of-work coordinator from
`src/database/transaction-scope.ts`.

The TypeScript class is shallowly embedded: the pending-change queue and the
hook registry become a pure `TransactionScope` state record, each staging
method becomes a state-transformer, and `commit` becomes a pure function from
the scope state plus an abstract datastore engine (which decides whether each
issued datastore call fails) to a `CommitResult` describing the calls issued,
the console logs emitted, the outcome, the hooks executed and the final state.
JavaScript untyped quirks that matter (casts that leave the runtime object
unchanged, property access on an object lacking the property yielding
`undefined`, truthiness of strings) are modelled explicitly.
-/

set_option autoImplicit false

namespace TxScope

/-- A JavaScript runtime value stored in an entity field or in
`options.values`. `callable` models a function-typed value
(`typeof v === 'function'`). -/
inductive Value where
  | str (s : String)
  | num (n : Int)
  | callable (tag : String)
  | null
  deriving DecidableEq, Repr

abbrev Key := String

/-- Is this value function-typed (`typeof value === 'function'`)? -/
def Value.isCallable : Value → Bool
  | .callable _ => true
  | _ => false

/-- First value bound to key `k` in a field list (JS object property read). -/
def getField : List (Key × Value) → Key → Option Value
  | [], _ => none
  | kv :: rest, k => if kv.1 == k then some kv.2 else getField rest k

/-- JS property write `obj[k] = v`: overwrite in place when the key exists
(JS objects keep insertion order for existing keys), append otherwise. -/
def setField (fs : List (Key × Value)) (k : Key) (v : Value) : List (Key × Value) :=
  if fs.any (fun kv => kv.1 == k) then
    fs.map (fun kv => if kv.1 == k then (k, v) else kv)
  else
    fs ++ [(k, v)]

/-- Modelled from the spec: `EntityBase` (imported from `./entitybase`, not
part of the analysed sources). Per the spec an entity exposes a stable
identity field `id`, a class-identity label used to route targeted
update/insert calls, its current field values, and an optional snapshot of
its pre-mutation field values used to compute a partial-update diff. -/
structure EntityBase where
  id : Int
  className : String
  fields : List (Key × Value)
  entitySnapshot : Option (List (Key × Value))
  deriving DecidableEq, Repr

/-- Modelled from the spec: the derived "fields changed since snapshot" view
(`getPropertiesToUpdate`): the current fields whose value differs from the
value recorded in the snapshot (or that the snapshot lacks). With no
snapshot every field counts as changed. -/
def EntityBase.getPropertiesToUpdate (e : EntityBase) : List (Key × Value) :=
  match e.entitySnapshot with
  | none => e.fields
  | some snap => e.fields.filter (fun kv => getField snap kv.1 ≠ some kv.2)

/-- Source `IRawQuery`: a raw statement descriptor. -/
structure IRawQuery where
  query : String
  parameters : List Value
  deriving DecidableEq, Repr

/-- Modelled from the spec: `ObjectState` (imported from `../common/enums`,
not part of the analysed sources). The four staged-change states the commit
replay dispatches on. -/
inductive ObjectState where
  | Insert
  | Update
  | Delete
  | HardDelete
  deriving DecidableEq, Repr

/-- Source `HookType`; currently only `AfterCommit`. -/
inductive HookType where
  | AfterCommit
  deriving DecidableEq, Repr

/-- How a registered listener behaves when invoked: it may throw
synchronously, return a promise that resolves, or return a promise that
rejects. Error payloads are abstract numeric codes. -/
inductive ListenerBeh where
  | syncThrow (e : Nat)
  | resolve
  | reject (e : Nat)
  deriving DecidableEq, Repr

/-- Source `HooksMetaData`: registered listener (identified by an
abstract `id`, with its invocation behaviour) tagged with a hook type. -/
structure HooksMetaData where
  type : HookType
  id : Nat
  beh : ListenerBeh
  deriving DecidableEq, Repr

/-- Source `TransactionCollectionEnum`. -/
inductive TransactionCollectionEnum where
  | RawQuery
  | EntityCollection
  | BulkEntityCollnection
  deriving DecidableEq, Repr

/-- Source `TransactionScopeOptions`: an optional criteria string
(`where?`) and a partial field map (`values`). -/
structure TransactionScopeOptions where
  «where» : Option String
  values : List (Key × Value)
  deriving DecidableEq, Repr

/-- JS truthiness of the optional `where` string: `undefined` and the empty
string are falsy. -/
def truthyWhere : Option String → Bool
  | some s => !(s == "")
  | none => false

/-- The `object` field of a staged record: the TypeScript union
`EntityBase[] | EntityBase | IRawQuery`. -/
inductive ScopePayload where
  | single (e : EntityBase)
  | batch (es : List EntityBase)
  | raw (q : IRawQuery)
  deriving DecidableEq, Repr

/-- JS property read `payload.query` after a cast to `IRawQuery`: present
only when the payload really is a raw-query descriptor, `undefined`
otherwise. -/
def ScopePayload.asRawText : ScopePayload → Option String
  | .raw q => some q.query
  | _ => none

/-- JS property read `payload.parameters` after a cast to `IRawQuery`. -/
def ScopePayload.asRawParams : ScopePayload → Option (List Value)
  | .raw q => some q.parameters
  | _ => none

/-- JS `payload.constructor.name`: the entity class label for an entity
instance, `'Array'` for an array, `'Object'` for a plain object literal. -/
def ScopePayload.constructorName : ScopePayload → String
  | .single e => e.className
  | .batch _ => "Array"
  | .raw _ => "Object"

/-- Source `TransactionScopeObject`: one staged pending change. -/
structure TransactionScopeObject where
  type : TransactionCollectionEnum
  object : ScopePayload
  objectState : Option ObjectState
  options : Option TransactionScopeOptions
  deriving DecidableEq, Repr

/-- The mutable state of one `TransactionScope` instance: the pending-change
queue (`_transactionObjects`) and the hook registry (`_hooks`). -/
structure TransactionScope where
  transactionObjects : List TransactionScopeObject
  hooks : List HooksMetaData
  deriving DecidableEq, Repr

/-- A freshly constructed scope: empty queue, empty registry. -/
def TransactionScope.empty : TransactionScope := ⟨[], []⟩

/-- Method `addRawQuery(query, parameters)`. -/
def TransactionScope.addRawQuery (query : String) (parameters : List Value)
    (s : TransactionScope) : TransactionScope :=
  { s with transactionObjects :=
      s.transactionObjects ++ [⟨.RawQuery, .raw ⟨query, parameters⟩, none, none⟩] }

/-- Method `add(obj)`: stage a single-entity insert. -/
def TransactionScope.add (obj : EntityBase) (s : TransactionScope) : TransactionScope :=
  { s with transactionObjects :=
      s.transactionObjects ++ [⟨.EntityCollection, .single obj, some .Insert, none⟩] }

/-- Method `addCollection(collection)`: stage a bulk-entity insert. -/
def TransactionScope.addCollection (collection : List EntityBase)
    (s : TransactionScope) : TransactionScope :=
  { s with transactionObjects :=
      s.transactionObjects ++ [⟨.BulkEntityCollnection, .batch collection, some .Insert, none⟩] }

/-- Method `update(obj)`: stage a single-entity update. -/
def TransactionScope.update (obj : EntityBase) (s : TransactionScope) : TransactionScope :=
  { s with transactionObjects :=
      s.transactionObjects ++ [⟨.EntityCollection, .single obj, some .Update, none⟩] }

/-- Method `delete(obj)`: stage a single-entity soft delete. -/
def TransactionScope.delete (obj : EntityBase) (s : TransactionScope) : TransactionScope :=
  { s with transactionObjects :=
      s.transactionObjects ++ [⟨.EntityCollection, .single obj, some .Delete, none⟩] }

/-- Method `hardDelete(obj)`: stage a single-entity hard delete. -/
def TransactionScope.hardDelete (obj : EntityBase) (s : TransactionScope) : TransactionScope :=
  { s with transactionObjects :=
      s.transactionObjects ++ [⟨.EntityCollection, .single obj, some .HardDelete, none⟩] }

/-- Method `deleteCollection(collection)`. -/
def TransactionScope.deleteCollection (collection : List EntityBase)
    (s : TransactionScope) : TransactionScope :=
  { s with transactionObjects :=
      s.transactionObjects ++ [⟨.BulkEntityCollnection, .batch collection, some .Delete, none⟩] }

/-- Method `hardDeleteCollection(collection)`. -/
def TransactionScope.hardDeleteCollection (collection : List EntityBase)
    (s : TransactionScope) : TransactionScope :=
  { s with transactionObjects :=
      s.transactionObjects ++ [⟨.BulkEntityCollnection, .batch collection, some .HardDelete, none⟩] }

/-- Method `updateCollection(collection)`: the source scans the collection and, as
soon as one member has a truthy `entitySnapshot`, stages every member as an
individual single-entity update and returns; otherwise it stages the whole
collection as one bulk-entity update record. -/
def TransactionScope.updateCollection (collection : List EntityBase)
    (s : TransactionScope) : TransactionScope :=
  if collection.any (fun c => c.entitySnapshot.isSome) then
    collection.foldl (fun acc obj => TransactionScope.update obj acc) s
  else
    { s with transactionObjects :=
        s.transactionObjects ++ [⟨.EntityCollection, .batch collection, some .Update, none⟩] }

/-- Method `registerAfterCommit(props)`. -/
def TransactionScope.registerAfterCommit (id : Nat) (beh : ListenerBeh)
    (s : TransactionScope) : TransactionScope :=
  { s with hooks := s.hooks ++ [⟨.AfterCommit, id, beh⟩] }

/-- Method `resetAfterCommit()`: keep only hooks of a different type. -/
def TransactionScope.resetAfterCommit (s : TransactionScope) : TransactionScope :=
  { s with hooks := s.hooks.filter (fun h => h.type ≠ HookType.AfterCommit) }

/-- Errors surfaced to JavaScript callers. `badRequest` is NestJS
`BadRequestException`, `jsError` a plain `new Error(...)`, `typeError` a
runtime `TypeError`, `dbFailure` a failure raised by a datastore call, and
`hookFailure` an error thrown by an after-commit listener. -/
inductive JsError where
  | badRequest (msg : String)
  | jsError (msg : String)
  | typeError (msg : String)
  | dbFailure (code : Nat)
  | hookFailure (code : Nat)
  deriving DecidableEq, Repr

/-- Merge loop shared by the custom-values staging methods: for each entry of
`options.values`, in order, copy it onto the entity's fields unless the value
is function-typed. -/
def mergeCustomValues (fs : List (Key × Value)) (vals : List (Key × Value)) :
    List (Key × Value) :=
  vals.foldl (fun acc kv => if kv.2.isCallable then acc else setField acc kv.1 kv.2) fs

/-- Method `insertWithCustomValues(obj, options)`: throws `BadRequestException` when
`options.where` is truthy, before touching the entity or the queue; otherwise
merges every non-callable value onto the entity and stages a single-entity
insert carrying the original `options` object. Returns the mutated entity
together with the new scope state. -/
def TransactionScope.insertWithCustomValues (obj : EntityBase)
    (options : TransactionScopeOptions) (s : TransactionScope) :
    Except JsError (EntityBase × TransactionScope) :=
  if truthyWhere options.«where» then
    .error (.badRequest "can't pass criteria when inserting values")
  else
    let merged : EntityBase := { obj with fields := mergeCustomValues obj.fields options.values }
    .ok (merged,
      { s with transactionObjects :=
          s.transactionObjects ++ [⟨.EntityCollection, .single merged, some .Insert, some options⟩] })

/-- Method `updateWithCustomValues(obj, options)`: same merge, no criteria check,
stages a single-entity update carrying the original `options` object. -/
def TransactionScope.updateWithCustomValues (obj : EntityBase)
    (options : TransactionScopeOptions) (s : TransactionScope) :
    EntityBase × TransactionScope :=
  let merged : EntityBase := { obj with fields := mergeCustomValues obj.fields options.values }
  (merged,
    { s with transactionObjects :=
        s.transactionObjects ++ [⟨.EntityCollection, .single merged, some .Update, some options⟩] })

/-- An element of the heterogeneous `(TransactionScopeObject | EntityBase)[]`
list built by `extractCollectionsFromTransactions`: single-entity records are
pushed as their whole wrapper object, bulk records are unwrapped into the
individual entities. -/
inductive EntityOrScopeObject where
  | scopeObj (o : TransactionScopeObject)
  | entity (e : EntityBase)
  deriving DecidableEq, Repr

/-- JS property read `.query` on a `TransactionScopeObject` that was cast to
`IRawQuery`: the wrapper has no `query` property, so the read yields
`undefined`. -/
def TransactionScopeObject.castQuery (_ : TransactionScopeObject) : Option String := none

/-- JS property read `.parameters` on a `TransactionScopeObject` cast to
`IRawQuery`: `undefined`, the wrapper has no such property. -/
def TransactionScopeObject.castParameters (_ : TransactionScopeObject) :
    Option (List Value) := none

/-- Modelled after TypeORM `SaveOptions` / `RemoveOptions`: opaque
configuration objects; we only track which one is handed to each call. -/
abbrev SaveOptions := Nat
abbrev RemoveOptions := Nat

/-- The `criteria` value passed to `transactionEntityManager.update`: either
the caller's raw `where` string or the default identity filter
`{ id: entity.id }`. -/
inductive Criteria where
  | rawWhere (s : String)
  | byId (id : Int)
  deriving DecidableEq, Repr

/-- The argument shape of a `save` call: the non-bulk paths pass the record's
payload directly; the bulk path passes the mixed wrapper/entity list built by
`extractCollectionsFromTransactions`. -/
inductive SavePayload where
  | scope (p : ScopePayload)
  | mixed (xs : List EntityOrScopeObject)
  deriving DecidableEq, Repr

/-- One call issued to the datastore collaborator inside the transaction. -/
inductive DbOp where
  | save (p : SavePayload) (opts : Option SaveOptions)
  | softRemove (p : ScopePayload) (opts : Option SaveOptions)
  | remove (p : ScopePayload) (opts : Option SaveOptions)
  | update (entityClass : String) (criteria : Criteria) (values : List (Key × Value))
  | insert (entityClass : String) (values : List (Key × Value))
  | query (text : Option String) (parameters : Option (List Value))
  deriving DecidableEq, Repr

/-- The datastore collaborator: decides whether the `k`-th call issued inside
the transaction fails (and with which error), and supplies the generated-map
result of insert calls. -/
structure DbEngine where
  failsAt : Nat → Option JsError
  generated : Nat → List (Key × Value)

/-- A datastore on which every call succeeds. -/
def dbOk : DbEngine := ⟨fun _ => none, fun _ => []⟩

/-- Issue planned calls sequentially starting at call index `k`; stop at the
first failing call. Returns the calls actually issued (the failing one
included — it was made and raised) and the error, if any. -/
def attemptOps (db : DbEngine) : List DbOp → Nat → List DbOp × Option JsError
  | [], _ => ([], none)
  | op :: rest, k =>
    match db.failsAt k with
    | some e => ([op], some e)
    | none =>
      let r := attemptOps db rest (k + 1)
      (op :: r.1, r.2)

/-- Method `extractCollectionsFromTransactions`: partition the queue. Single-entity
records are pushed as their wrapper object; bulk records are spread
(`push(...obj)`) — spreading a payload that is not an array throws a
`TypeError`; every other record (the raw queries) is pushed, cast as
`IRawQuery`, into the raw-query list as the wrapper object it really is. -/
def extractCollectionsFromTransactions (transactionObjects : List TransactionScopeObject) :
    Except JsError (List EntityOrScopeObject × List TransactionScopeObject) :=
  transactionObjects.foldlM
    (fun acc trObj =>
      if trObj.type = TransactionCollectionEnum.EntityCollection then
        .ok (acc.1 ++ [.scopeObj trObj], acc.2)
      else if trObj.type = TransactionCollectionEnum.BulkEntityCollnection then
        match trObj.object with
        | .batch es => .ok (acc.1 ++ es.map .entity, acc.2)
        | _ => .error (.typeError "object is not iterable")
      else
        .ok (acc.1, acc.2 ++ [trObj]))
    ([], [])

/-- The outcome of dispatching a prefix of the queue: the datastore calls it
wants to issue in order, the console logs it emits, and the error it throws
(after those calls), if any. -/
structure PlanStep where
  ops : List DbOp
  logs : List String
  err : Option JsError
  deriving DecidableEq, Repr

/-- Non-bulk dispatch of one staged record, mirroring the `switch` in
`commit`: raw queries execute their text and parameters; `Delete` soft-removes
and `HardDelete` removes the payload, both passed `saveOptions`; `Update` on
an entity instance prefers the snapshot diff keyed by id, then the staged
options (truthy `where` or the id default), then a whole-entity save; `Update`
on an array saves the collection; `Update` on anything else logs and throws;
`Insert` with options issues a targeted insert of `options.values`, otherwise
a whole-entity save. A record whose `objectState` is `undefined` matches no
switch case and does nothing. -/
def planRecord (saveOptions : Option SaveOptions) (t : TransactionScopeObject) : PlanStep :=
  match t.type with
  | .RawQuery => ⟨[.query t.object.asRawText t.object.asRawParams], [], none⟩
  | _ =>
    match t.objectState with
    | some .Delete => ⟨[.softRemove t.object saveOptions], [], none⟩
    | some .HardDelete => ⟨[.remove t.object saveOptions], [], none⟩
    | some .Update =>
      match t.object with
      | .single e =>
        if e.entitySnapshot.isSome then
          ⟨[.update e.className (.byId e.id) e.getPropertiesToUpdate], [], none⟩
        else
          match t.options with
          | some o =>
            let criteria : Criteria :=
              match o.«where» with
              | some s => if s == "" then .byId e.id else .rawWhere s
              | none => .byId e.id
            ⟨[.update e.className criteria o.values], [], none⟩
          | none => ⟨[.save (.scope (.single e)) saveOptions], [], none⟩
      | .batch es => ⟨[.save (.scope (.batch es)) saveOptions], [], none⟩
      | .raw _ =>
        ⟨[], ["ENTITY NOT AN INSTANCE OF ENTITY BASE"],
          some (.jsError "Entity is not an instance of entity base")⟩
    | some .Insert =>
      match t.options with
      | some o => ⟨[.insert t.object.constructorName o.values], [], none⟩
      | none => ⟨[.save (.scope t.object) saveOptions], [], none⟩
    | none => ⟨[], [], none⟩

/-- Non-bulk replay plan: dispatch the queue strictly in submission order,
stopping at the first record that throws. -/
def planNonBulk (saveOptions : Option SaveOptions) :
    List TransactionScopeObject → PlanStep
  | [] => ⟨[], [], none⟩
  | t :: rest =>
    let s := planRecord saveOptions t
    match s.err with
    | some e => ⟨s.ops, s.logs, some e⟩
    | none =>
      let r := planNonBulk saveOptions rest
      ⟨s.ops ++ r.ops, s.logs ++ r.logs, r.err⟩

/-- Bulk replay plan: partition the queue, issue one `save` of the whole
mixed entity list, then one `query` per extracted raw-query element — whose
text and parameters are read off the wrapper object and are therefore
`undefined`. -/
def planBulk (saveOptions : Option SaveOptions)
    (transactionObjects : List TransactionScopeObject) : PlanStep :=
  match extractCollectionsFromTransactions transactionObjects with
  | .error e => ⟨[], [], some e⟩
  | .ok (entityCollection, rawQueryCollection) =>
    ⟨.save (.mixed entityCollection) saveOptions ::
        rawQueryCollection.map (fun o => .query o.castQuery o.castParameters),
      [], none⟩

/-- Result of `processAfterCommitHooks`: which listeners were invoked, the
console logs, the error rethrown from the `catch` (if any), and the hook
registry left by the `finally` reset. -/
structure HookResult where
  invoked : List Nat
  logs : List String
  err : Option JsError
  remaining : List HooksMetaData
  deriving DecidableEq, Repr

/-- The `map` over the filtered hooks invokes each listener in order to
collect its promise. A listener that throws synchronously aborts the `map`
(later listeners are never invoked) and the exception escapes; promise
rejections become settled results of `Promise.allSettled`, which never
rejects, so they surface no error. -/
def invokeListeners : List HooksMetaData → List Nat × Option JsError
  | [] => ([], none)
  | h :: rest =>
    match h.beh with
    | .syncThrow e => ([h.id], some (.hookFailure e))
    | _ =>
      let r := invokeListeners rest
      (h.id :: r.1, r.2)

/-- Method `processAfterCommitHooks`: filter the AfterCommit hooks, invoke the
listeners and `allSettled` their promises; a synchronous throw is caught,
logged and rethrown; the `finally` clause always resets the AfterCommit
registry. -/
def processAfterCommitHooks (hooks : List HooksMetaData) : HookResult :=
  let afterCommitsHooks := hooks.filter (fun h => h.type = HookType.AfterCommit)
  let r := invokeListeners afterCommitsHooks
  let remaining := hooks.filter (fun h => h.type ≠ HookType.AfterCommit)
  match r.2 with
  | some e =>
    ⟨r.1, ["error while executing transaction scope AfterCommit Hooks"], some e, remaining⟩
  | none => ⟨r.1, [], none, remaining⟩

instance {α β : Type} [DecidableEq α] [DecidableEq β] : DecidableEq (Except α β) :=
  fun a b =>
  match a, b with
  | .ok x, .ok y =>
    if h : x = y then isTrue (by rw [h])
    else isFalse (by intro hh; cases hh; exact h rfl)
  | .error e, .error f =>
    if h : e = f then isTrue (by rw [h])
    else isFalse (by intro hh; cases hh; exact h rfl)
  | .ok _, .error _ => isFalse (by intro h; cases h)
  | .error _, .ok _ => isFalse (by intro h; cases h)

/-- Everything observable about one `commit` call: the datastore calls issued
inside the transaction, the console logs, the error (if any) that escaped the
datastore transaction, the commit's overall outcome, the ids of the hook
listeners invoked, and the scope state left behind. -/
structure CommitResult where
  ops : List DbOp
  logs : List String
  txError : Option JsError
  outcome : Except JsError Unit
  executedHooks : List Nat
  finalScope : TransactionScope
  deriving DecidableEq, Repr

set_option linter.unusedVariables false in
/-- Method `commit(saveOptions?, removeOptions?, performEntityBulkUpsert = false)`:
run the replay plan inside one datastore transaction; on any error reset the
queue and rethrow; on success reset the queue and then run the AfterCommit
hooks (whose own error, if any, escapes to the caller after the data has
committed). `removeOptions` is accepted but never read. -/
def commit (saveOptions : Option SaveOptions) (removeOptions : Option RemoveOptions)
    (performEntityBulkUpsert : Bool) (db : DbEngine) (s : TransactionScope) : CommitResult :=
  let plan :=
    if performEntityBulkUpsert then planBulk saveOptions s.transactionObjects
    else planNonBulk saveOptions s.transactionObjects
  let attempt := attemptOps db plan.ops 0
  let txErr : Option JsError :=
    match attempt.2 with
    | some e => some e
    | none => plan.err
  match txErr with
  | some e =>
    { ops := attempt.1
      logs := if attempt.2.isSome then [] else plan.logs
      txError := some e
      outcome := .error e
      executedHooks := []
      finalScope := { s with transactionObjects := [] } }
  | none =>
    let h := processAfterCommitHooks s.hooks
    { ops := attempt.1
      logs := plan.logs ++ h.logs
      txError := none
      outcome := match h.err with | some e => .error e | none => .ok ()
      executedHooks := h.invoked
      finalScope := { transactionObjects := [], hooks := h.remaining } }

/-! ## Spec-side definitions

These follow the wording of the specification claims (not the source) and are
compared against the embedded code. -/

/-- The non-bulk dispatch rule as the spec states it: RawQuery executes the
query text with its parameters; Delete soft-removes; HardDelete removes;
Update prefers the snapshot diff keyed by the entity's id, then a targeted
update with `options.criteria` (defaulting to match by id) and
`options.values`, then a whole-entity save. Cases the spec sentence does not
cover are left empty. -/
def specNonBulkDispatch (saveOptions : Option SaveOptions)
    (t : TransactionScopeObject) : List DbOp :=
  match t.type with
  | .RawQuery =>
    match t.object with
    | .raw q => [.query (some q.query) (some q.parameters)]
    | _ => []
  | _ =>
    match t.objectState with
    | some .Delete => [.softRemove t.object saveOptions]
    | some .HardDelete => [.remove t.object saveOptions]
    | some .Update =>
      match t.object with
      | .single e =>
        if e.entitySnapshot.isSome then
          [.update e.className (.byId e.id) e.getPropertiesToUpdate]
        else
          match t.options with
          | some o =>
            [.update e.className
              (match o.«where» with
               | some s => .rawWhere s
               | none => .byId e.id)
              o.values]
          | none => [.save (.scope (.single e)) saveOptions]
      | _ => []
    | _ => []

/-- The staged records claim C2 speaks about: raw queries carrying a raw
payload, deletes, hard-deletes, and single-entity updates. For a
diff-less update carrying options the claim leaves the empty criteria
string unspecified, so such records are excluded. -/
def c2covered (t : TransactionScopeObject) : Bool :=
  match t.type with
  | .RawQuery => match t.object with | .raw _ => true | _ => false
  | _ =>
    match t.objectState with
    | some .Delete => true
    | some .HardDelete => true
    | some .Update =>
      match t.object with
      | .single e =>
        if e.entitySnapshot.isSome then true
        else
          match t.options with
          | some o => !(o.«where» == some "")
          | none => true
      | _ => false
    | _ => false

/-- The spec notion of carrying a non-empty snapshot-diff: the entity has
a snapshot and at least one field changed since the snapshot was taken. -/
def specHasNonEmptySnapshotDiff (e : EntityBase) : Bool :=
  e.entitySnapshot.isSome && !e.getPropertiesToUpdate.isEmpty

/-! ## Helper lemmas -/

theorem attemptOps_dbOk (ops : List DbOp) (k : Nat) :
    attemptOps dbOk ops k = (ops, none) := by
  induction ops generalizing k with
  | nil => rfl
  | cons op rest ih =>
    simp only [dbOk] at ih ⊢
    simp [attemptOps, ih]

theorem hookType_eq (t : HookType) : t = HookType.AfterCommit := by cases t; rfl

theorem filter_afterCommit_self (l : List HooksMetaData) :
    l.filter (fun h => h.type = HookType.AfterCommit) = l := by
  induction l with
  | nil => rfl
  | cons h t ih =>
    obtain ⟨ht, hid, hb⟩ := h
    cases ht
    simp [List.filter_cons, ih]

theorem filter_not_afterCommit_nil (l : List HooksMetaData) :
    l.filter (fun h => h.type ≠ HookType.AfterCommit) = [] := by
  induction l with
  | nil => rfl
  | cons h t ih =>
    obtain ⟨ht, hid, hb⟩ := h
    cases ht
    simp [List.filter_cons, ih]

theorem invokeListeners_no_syncThrow (l : List HooksMetaData)
    (h : ∀ x ∈ l, ∀ e, x.beh ≠ ListenerBeh.syncThrow e) :
    invokeListeners l = (l.map (fun x => x.id), none) := by
  induction l with
  | nil => rfl
  | cons x t ih =>
    have hx := h x (by simp)
    have ht := ih (fun y hy => h y (by simp [hy]))
    cases hb : x.beh with
    | syncThrow e => exact absurd hb (hx e)
    | resolve => simp [invokeListeners, hb, ht]
    | reject e => simp [invokeListeners, hb, ht]

theorem processAfterCommitHooks_no_syncThrow (l : List HooksMetaData)
    (h : ∀ x ∈ l, ∀ e, x.beh ≠ ListenerBeh.syncThrow e) :
    processAfterCommitHooks l = ⟨l.map (fun x => x.id), [], none, []⟩ := by
  simp [processAfterCommitHooks, filter_afterCommit_self, filter_not_afterCommit_nil,
    invokeListeners_no_syncThrow l h]

/-- The pending queue is reset on every path out of `commit`. -/
theorem commit_queue_empty (so : Option SaveOptions) (ro : Option RemoveOptions)
    (bulk : Bool) (db : DbEngine) (s : TransactionScope) :
    (commit so ro bulk db s).finalScope.transactionObjects = [] := by
  simp only [commit]
  split <;> rfl

/-- When the datastore transaction fails, `commit` rethrows that error,
executes no hook, and leaves the queue empty but the hook registry intact. -/
theorem commit_error_case (so : Option SaveOptions) (ro : Option RemoveOptions)
    (bulk : Bool) (db : DbEngine) (s : TransactionScope) (e : JsError)
    (h : (commit so ro bulk db s).txError = some e) :
    (commit so ro bulk db s).outcome = Except.error e ∧
    (commit so ro bulk db s).executedHooks = [] ∧
    (commit so ro bulk db s).finalScope = ⟨[], s.hooks⟩ := by
  revert h
  simp only [commit]
  split
  · intro h
    simp only [Option.some.injEq] at h
    subst h
    exact ⟨rfl, rfl, rfl⟩
  · intro h
    simp at h

/-- Covered records are dispatched exactly as the spec sentence says. -/
theorem planRecord_covered (so : Option SaveOptions) (t : TransactionScopeObject)
    (h : c2covered t = true) :
    planRecord so t = ⟨specNonBulkDispatch so t, [], none⟩ := by
  obtain ⟨ty, obj, st, opts⟩ := t
  cases ty with
  | RawQuery =>
    cases obj with
    | raw q => rfl
    | single e => simp [c2covered] at h
    | batch es => simp [c2covered] at h
  | EntityCollection =>
    cases st with
    | none => simp [c2covered] at h
    | some os =>
      cases os with
      | Insert => simp [c2covered] at h
      | Delete => rfl
      | HardDelete => rfl
      | Update =>
        cases obj with
        | batch es => simp [c2covered] at h
        | raw q => simp [c2covered] at h
        | single e =>
          by_cases hs : e.entitySnapshot.isSome
          · simp [planRecord, specNonBulkDispatch, hs]
          · cases ho : opts with
            | none =>
              simp [planRecord, specNonBulkDispatch, hs]
            | some o =>
              cases hw : o.«where» with
              | none => simp [planRecord, specNonBulkDispatch, hs, hw]
              | some str =>
                have hstr : ¬(str = "") := by
                  simp [c2covered, ho, hs, hw] at h
                  exact h
                simp [planRecord, specNonBulkDispatch, hs, hw, hstr]
  | BulkEntityCollnection =>
    cases st with
    | none => simp [c2covered] at h
    | some os =>
      cases os with
      | Insert => simp [c2covered] at h
      | Delete => rfl
      | HardDelete => rfl
      | Update =>
        cases obj with
        | batch es => simp [c2covered] at h
        | raw q => simp [c2covered] at h
        | single e =>
          by_cases hs : e.entitySnapshot.isSome
          · simp [planRecord, specNonBulkDispatch, hs]
          · cases ho : opts with
            | none =>
              simp [planRecord, specNonBulkDispatch, hs]
            | some o =>
              cases hw : o.«where» with
              | none => simp [planRecord, specNonBulkDispatch, hs, hw]
              | some str =>
                have hstr : ¬(str = "") := by
                  simp [c2covered, ho, hs, hw] at h
                  exact h
                simp [planRecord, specNonBulkDispatch, hs, hw, hstr]

/-- A queue of covered records is planned as the concatenation, in submission
order, of the spec's dispatch of each record, with no error and no log. -/
theorem planNonBulk_covered (so : Option SaveOptions) (objs : List TransactionScopeObject)
    (h : ∀ t ∈ objs, c2covered t = true) :
    planNonBulk so objs = ⟨objs.flatMap (specNonBulkDispatch so), [], none⟩ := by
  induction objs with
  | nil => rfl
  | cons t rest ih =>
    have ht := planRecord_covered so t (h t (by simp))
    have hr := ih (fun x hx => h x (by simp [hx]))
    simp [planNonBulk, ht, hr, List.flatMap_cons]

/-- Planning distributes over an error-free prefix of the queue. -/
theorem planNonBulk_append (so : Option SaveOptions) (xs ys : List TransactionScopeObject)
    (h : (planNonBulk so xs).err = none) :
    planNonBulk so (xs ++ ys) =
      ⟨(planNonBulk so xs).ops ++ (planNonBulk so ys).ops,
       (planNonBulk so xs).logs ++ (planNonBulk so ys).logs,
       (planNonBulk so ys).err⟩ := by
  induction xs with
  | nil => simp [planNonBulk]
  | cons t rest ih =>
    cases he : (planRecord so t).err with
    | some e => simp [planNonBulk, he] at h
    | none =>
      have h' : (planNonBulk so rest).err = none := by
        simpa [planNonBulk, he] using h
      simp [planNonBulk, he, ih h', List.append_assoc]

/-- Folding `update` over a collection appends one single-entity update
record per element, in order. -/
theorem foldl_update_queue (col : List EntityBase) (s : TransactionScope) :
    (col.foldl (fun acc obj => TransactionScope.update obj acc) s).transactionObjects =
      s.transactionObjects ++
        col.map (fun e =>
          (⟨.EntityCollection, .single e, some .Update, none⟩ : TransactionScopeObject)) := by
  induction col generalizing s with
  | nil => simp
  | cons e rest ih =>
    rw [List.foldl_cons, ih]
    simp [TransactionScope.update, List.append_assoc]

theorem getField_replaceAll (k : Key) (v : Value) :
    ∀ fs : List (Key × Value), fs.any (fun kv => kv.1 == k) = true →
      getField (fs.map (fun kv => if kv.1 == k then (k, v) else kv)) k = some v := by
  intro fs
  induction fs with
  | nil => intro h; simp at h
  | cons a t ih =>
    intro h
    rw [List.map_cons]
    by_cases ha : (a.1 == k) = true
    · rw [if_pos ha]
      simp [getField]
    · rw [if_neg ha]
      have h' : t.any (fun kv => kv.1 == k) = true := by
        simpa [List.any_cons, ha] using h
      simp only [getField]
      rw [if_neg ha]
      exact ih h'

theorem getField_appendOne (k : Key) (v : Value) :
    ∀ fs : List (Key × Value), fs.any (fun kv => kv.1 == k) = false →
      getField (fs ++ [(k, v)]) k = some v := by
  intro fs
  induction fs with
  | nil => intro _; simp [getField]
  | cons a t ih =>
    intro h
    have ha : (a.1 == k) = false := by
      cases hb : (a.1 == k) with
      | false => rfl
      | true => simp [List.any_cons, hb] at h
    have h' : t.any (fun kv => kv.1 == k) = false := by
      simpa [List.any_cons, ha] using h
    rw [List.cons_append]
    simp only [getField]
    rw [if_neg (by simp [ha])]
    exact ih h'

theorem getField_setField_self (fs : List (Key × Value)) (k : Key) (v : Value) :
    getField (setField fs k v) k = some v := by
  unfold setField
  by_cases hany : fs.any (fun kv => kv.1 == k) = true
  · rw [if_pos hany]
    exact getField_replaceAll k v fs hany
  · rw [if_neg hany]
    refine getField_appendOne k v fs ?_
    cases hb : fs.any (fun kv => kv.1 == k) with
    | false => rfl
    | true => exact absurd hb hany

theorem getField_replaceAll_ne (k k' : Key) (v : Value) (h : ¬(k = k')) :
    ∀ fs : List (Key × Value),
      getField (fs.map (fun kv => if kv.1 == k then (k, v) else kv)) k' = getField fs k' := by
  intro fs
  induction fs with
  | nil => rfl
  | cons a t ih =>
    rw [List.map_cons]
    by_cases ha : (a.1 == k) = true
    · have hak : a.1 = k := by simpa using ha
      have h1 : (k == k') = false := by simpa using h
      have h2 : (a.1 == k') = false := by rw [hak]; exact h1
      rw [if_pos ha]
      simp only [getField]
      rw [if_neg (by simp [h1]), if_neg (by simp [h2])]
      exact ih
    · rw [if_neg ha]
      simp only [getField]
      by_cases hk' : (a.1 == k') = true
      · rw [if_pos hk', if_pos hk']
      · rw [if_neg hk', if_neg hk']
        exact ih

theorem getField_appendOne_ne (k k' : Key) (v : Value) (h : ¬(k = k')) :
    ∀ fs : List (Key × Value), getField (fs ++ [(k, v)]) k' = getField fs k' := by
  intro fs
  induction fs with
  | nil =>
    have h1 : (k == k') = false := by simpa using h
    simp [getField, h1]
  | cons a t ih =>
    rw [List.cons_append]
    simp only [getField]
    by_cases hk' : (a.1 == k') = true
    · rw [if_pos hk', if_pos hk']
    · rw [if_neg hk', if_neg hk']
      exact ih

theorem getField_setField_ne (fs : List (Key × Value)) (k k' : Key) (v : Value)
    (h : ¬(k = k')) :
    getField (setField fs k v) k' = getField fs k' := by
  unfold setField
  by_cases hany : fs.any (fun kv => kv.1 == k) = true
  · rw [if_pos hany]
    exact getField_replaceAll_ne k k' v h fs
  · rw [if_neg hany]
    exact getField_appendOne_ne k k' v h fs

theorem mergeCustomValues_cons (fs : List (Key × Value)) (kv : Key × Value)
    (rest : List (Key × Value)) :
    mergeCustomValues fs (kv :: rest) =
      mergeCustomValues (if kv.2.isCallable then fs else setField fs kv.1 kv.2) rest := rfl

theorem getField_mergeCustomValues_not_mem :
    ∀ (vals fs : List (Key × Value)) (k : Key),
      (∀ kv ∈ vals, ¬(kv.1 = k)) →
      getField (mergeCustomValues fs vals) k = getField fs k := by
  intro vals
  induction vals with
  | nil => intro fs k _; rfl
  | cons kv rest ih =>
    intro fs k h
    rw [mergeCustomValues_cons]
    rw [ih _ k (fun x hx => h x (List.mem_cons_of_mem _ hx))]
    by_cases hc : kv.2.isCallable = true
    · rw [if_pos hc]
    · rw [if_neg hc]
      exact getField_setField_ne fs kv.1 k kv.2 (h kv (by simp))

/-- What the custom-values merge writes: a key bound in `vals` (with distinct
keys) ends up holding its value, unless the value is callable, in which case
the original binding is untouched. -/
theorem getField_mergeCustomValues_mem :
    ∀ (vals fs : List (Key × Value)) (k : Key) (v : Value),
      (vals.map Prod.fst).Nodup → (k, v) ∈ vals →
      getField (mergeCustomValues fs vals) k =
        if v.isCallable = true then getField fs k else some v := by
  intro vals
  induction vals with
  | nil => intro fs k v _ hmem; simp at hmem
  | cons kv rest ih =>
    intro fs k v hnodup hmem
    rw [List.map_cons, List.nodup_cons] at hnodup
    rw [mergeCustomValues_cons]
    rcases List.mem_cons.mp hmem with heq | hrest
    · have hk : kv.1 = k := by rw [← heq]
      have hv : kv.2 = v := by rw [← heq]
      have hnot : ∀ x ∈ rest, ¬(x.1 = k) := by
        intro x hx hxk
        exact hnodup.1 (by rw [hk, ← hxk]; exact List.mem_map_of_mem Prod.fst hx)
      rw [getField_mergeCustomValues_not_mem rest _ k hnot]
      by_cases hc : kv.2.isCallable = true
      · rw [if_pos hc, if_pos (by rw [← hv]; exact hc)]
      · rw [if_neg hc, if_neg (by rw [← hv]; exact hc)]
        rw [← hk, ← hv]
        exact getField_setField_self fs kv.1 kv.2
    · have hkne : ¬(kv.1 = k) := by
        intro hk
        exact hnodup.1 (by rw [hk]; exact List.mem_map_of_mem Prod.fst hrest)
      rw [ih _ k v hnodup.2 hrest]
      by_cases hvc : v.isCallable = true
      · rw [if_pos hvc, if_pos hvc]
        by_cases hc2 : kv.2.isCallable = true
        · rw [if_pos hc2]
        · rw [if_neg hc2]
          exact getField_setField_ne fs kv.1 k kv.2 hkne
      · rw [if_neg hvc, if_neg hvc]

/-! ## Concrete inputs used by witnesses and counterexamples -/

/-- An entity with no snapshot. -/
def entNoSnap : EntityBase := ⟨1, "User", [("name", .str "x")], none⟩

/-- An entity whose snapshot differs from its current fields. -/
def entSnap : EntityBase := ⟨2, "User", [("name", .str "y")], some [("name", .str "z")]⟩

/-- An entity whose snapshot is present but identical to its current fields:
its snapshot-diff is empty. -/
def entC5 : EntityBase := ⟨1, "User", [("name", .str "a")], some [("name", .str "a")]⟩

/-- A bare entity used by the custom-values scenarios. -/
def entC6 : EntityBase := ⟨7, "User", [], none⟩

/-- Custom values holding one literal and one callable entry. -/
def optsC6 : TransactionScopeOptions :=
  ⟨none, [("name", .str "a"), ("fn", .callable "f")]⟩

/-- A datastore whose very first call fails. -/
def dbFail0 : DbEngine :=
  ⟨fun k => if k = 0 then some (.dbFailure 9) else none, fun _ => []⟩

/-! ## Claims -/

/-- C5 counterexample: `entC5` carries a snapshot whose diff is empty, so no
member of `[entC5]` carries a non-empty snapshot-diff — yet `updateCollection`
stages it as an individual SingleEntity/Update record, not as the one
EntityBatch/Update record the claim requires. -/
theorem claim5_counterexample :
    specHasNonEmptySnapshotDiff entC5 = false ∧
    (TransactionScope.updateCollection [entC5] TransactionScope.empty).transactionObjects =
      [⟨.EntityCollection, .single entC5, some .Update, none⟩] ∧
    (TransactionScope.updateCollection [entC5] TransactionScope.empty).transactionObjects ≠
      [⟨.EntityCollection, .batch [entC5], some .Update, none⟩] := by decide

/-- C5 (amended): `updateCollection` stages each element as an individual
SingleEntity/Update record if and only if at least one element carries a
snapshot (`entitySnapshot` set, whether or not its diff is empty); otherwise
it stages exactly one EntityBatch/Update record holding the whole
collection. -/
theorem claim5_update_collection_splits_iff_snapshot
    (collection : List EntityBase) (s : TransactionScope) :
    (collection.any (fun c => c.entitySnapshot.isSome) = true →
      (TransactionScope.updateCollection collection s).transactionObjects =
        s.transactionObjects ++ collection.map (fun e =>
          (⟨.EntityCollection, .single e, some .Update, none⟩ : TransactionScopeObject))) ∧
    (collection.any (fun c => c.entitySnapshot.isSome) = false →
      (TransactionScope.updateCollection collection s).transactionObjects =
        s.transactionObjects ++
          [⟨.EntityCollection, .batch collection, some .Update, none⟩]) := by
  constructor
  · intro h
    unfold TransactionScope.updateCollection
    rw [if_pos h]
    exact foldl_update_queue collection s
  · intro h
    unfold TransactionScope.updateCollection
    rw [if_neg (by simp [h])]

/-- C5 witness: on `[entSnap, entNoSnap]` (one member with a snapshot) the
collection is staged as individual update records. -/
theorem claim5_witness :
    ([entSnap, entNoSnap].any (fun c => c.entitySnapshot.isSome) = true) ∧
    (TransactionScope.updateCollection [entSnap, entNoSnap]
        TransactionScope.empty).transactionObjects =
      TransactionScope.empty.transactionObjects ++
        [entSnap, entNoSnap].map (fun e =>
          (⟨.EntityCollection, .single e, some .Update, none⟩ : TransactionScopeObject)) :=
  ⟨by decide,
   (claim5_update_collection_splits_iff_snapshot [entSnap, entNoSnap]
      TransactionScope.empty).1 (by decide)⟩

/-- C6 counterexample: `insertWithCustomValues` merges only the literal value
onto the entity, but the staged change carries the original `options` object,
whose `values` still contain the callable entry — not only the non-callable
entries as the claim states. -/
theorem claim6_counterexample :
    (TransactionScope.insertWithCustomValues entC6 optsC6 TransactionScope.empty =
      .ok (⟨7, "User", [("name", .str "a")], none⟩,
        ⟨[⟨.EntityCollection, .single ⟨7, "User", [("name", .str "a")], none⟩,
            some .Insert, some optsC6⟩], []⟩)) ∧
    ("fn", .callable "f") ∈ optsC6.values ∧
    optsC6.values ≠ [("name", .str "a")] := by decide

/-- C6 (amended): both custom-values staging methods copy every non-callable
entry of `options.values` onto the entity's fields and leave fields named by
callable entries untouched, but the staged change carries the original
`options` object unfiltered — `options.values` retains its callable
entries. -/
theorem claim6_custom_values_merge
    (e : EntityBase) (opts : TransactionScopeOptions) (s : TransactionScope)
    (k : Key) (v : Value)
    (hw : truthyWhere opts.«where» = false)
    (hnd : (opts.values.map Prod.fst).Nodup)
    (hmem : (k, v) ∈ opts.values) :
    (TransactionScope.insertWithCustomValues e opts s =
      .ok ({ e with fields := mergeCustomValues e.fields opts.values },
        { s with transactionObjects := s.transactionObjects ++
            [⟨.EntityCollection,
              .single { e with fields := mergeCustomValues e.fields opts.values },
              some .Insert, some opts⟩] })) ∧
    ((TransactionScope.updateWithCustomValues e opts s).2.transactionObjects =
      s.transactionObjects ++
        [⟨.EntityCollection,
          .single { e with fields := mergeCustomValues e.fields opts.values },
          some .Update, some opts⟩]) ∧
    (getField (mergeCustomValues e.fields opts.values) k =
      if v.isCallable = true then getField e.fields k else some v) := by
  refine ⟨?_, rfl, ?_⟩
  · unfold TransactionScope.insertWithCustomValues
    rw [if_neg (by simp [hw])]
  · exact getField_mergeCustomValues_mem opts.values e.fields k v hnd hmem

/-- C6 witness: with values `{name: "a", fn: callable}`, `name` is written
onto the entity and `fn` is not. -/
theorem claim6_witness :
    truthyWhere optsC6.«where» = false ∧
    (getField (mergeCustomValues entC6.fields optsC6.values) "name" =
      if (Value.str "a").isCallable = true then getField entC6.fields "name"
      else some (.str "a")) ∧
    (getField (mergeCustomValues entC6.fields optsC6.values) "fn" =
      if (Value.callable "f").isCallable = true then getField entC6.fields "fn"
      else some (.callable "f")) :=
  ⟨by decide,
   (claim6_custom_values_merge entC6 optsC6 TransactionScope.empty "name" (.str "a")
      (by decide) (by decide) (by decide)).2.2,
   (claim6_custom_values_merge entC6 optsC6 TransactionScope.empty "fn" (.callable "f")
      (by decide) (by decide) (by decide)).2.2⟩

/-- C7 counterexample: with `where` set to the empty string — a set criteria,
but falsy in JavaScript — `insertWithCustomValues` does not raise: it stages
the change normally. -/
theorem claim7_counterexample :
    ((⟨some "", []⟩ : TransactionScopeOptions).«where»).isSome = true ∧
    TransactionScope.insertWithCustomValues entC6 ⟨some "", []⟩ TransactionScope.empty =
      .ok (entC6,
        ⟨[⟨.EntityCollection, .single entC6, some .Insert, some ⟨some "", []⟩⟩], []⟩) := by
  decide

/-- C7 (amended): for every entity and options whose `where` criteria is
truthy (set and non-empty), `insertWithCustomValues` raises
`BadRequestException` synchronously; the error return carries no new state,
so nothing is appended to the queue and the entity is not mutated. -/
theorem claim7_insert_rejects_truthy_criteria
    (e : EntityBase) (opts : TransactionScopeOptions) (s : TransactionScope)
    (h : truthyWhere opts.«where» = true) :
    TransactionScope.insertWithCustomValues e opts s =
      .error (.badRequest "can't pass criteria when inserting values") := by
  unfold TransactionScope.insertWithCustomValues
  rw [if_pos h]

/-- C7 witness: a non-empty criteria string is rejected. -/
theorem claim7_witness :
    truthyWhere (⟨some "x", []⟩ : TransactionScopeOptions).«where» = true ∧
    TransactionScope.insertWithCustomValues entC6 ⟨some "x", []⟩ TransactionScope.empty =
      .error (.badRequest "can't pass criteria when inserting values") :=
  ⟨by decide,
   claim7_insert_rejects_truthy_criteria entC6 ⟨some "x", []⟩ TransactionScope.empty
     (by decide)⟩

/-- A raw-query staged on an otherwise empty scope, with one hook
registered. -/
def scopeC1 : TransactionScope :=
  ⟨[⟨.RawQuery, .raw ⟨"SELECT 1", []⟩, none, none⟩], [⟨.AfterCommit, 3, .resolve⟩]⟩

/-- C1: for every staging state and datastore behaviour, `commit` leaves the
pending-change queue empty whether it returns or raises; and when the
datastore transaction fails, that error is rethrown to the caller and no
AfterCommit hook is executed during that commit. -/
theorem claim1_commit_queue_empty_and_failure_no_hooks
    (so : Option SaveOptions) (ro : Option RemoveOptions) (bulk : Bool)
    (db : DbEngine) (s : TransactionScope) :
    (commit so ro bulk db s).finalScope.transactionObjects = [] ∧
    (∀ e : JsError, (commit so ro bulk db s).txError = some e →
      (commit so ro bulk db s).outcome = Except.error e ∧
      (commit so ro bulk db s).executedHooks = []) :=
  ⟨commit_queue_empty so ro bulk db s,
   fun e he =>
     ⟨(commit_error_case so ro bulk db s e he).1,
      (commit_error_case so ro bulk db s e he).2.1⟩⟩

/-- C1 witness: a commit whose first datastore call fails. -/
theorem claim1_witness :
    (commit none none false dbFail0 scopeC1).finalScope.transactionObjects = [] ∧
    (commit none none false dbFail0 scopeC1).outcome = Except.error (.dbFailure 9) ∧
    (commit none none false dbFail0 scopeC1).executedHooks = [] := by
  have h := claim1_commit_queue_empty_and_failure_no_hooks none none false dbFail0 scopeC1
  have he : (commit none none false dbFail0 scopeC1).txError = some (.dbFailure 9) := by
    decide
  exact ⟨h.1, (h.2 _ he).1, (h.2 _ he).2⟩

/-- C2: in non-bulk mode, on a queue of records of the kinds the claim
enumerates, `commit` issues exactly the datastore calls prescribed by the
spec's dispatch table, in submission order, and the transaction succeeds on a
failure-free datastore. -/
theorem claim2_nonbulk_dispatch_refines_spec
    (so : Option SaveOptions) (ro : Option RemoveOptions)
    (objs : List TransactionScopeObject) (hooks : List HooksMetaData)
    (h : ∀ t ∈ objs, c2covered t = true) :
    (commit so ro false dbOk ⟨objs, hooks⟩).ops =
      objs.flatMap (specNonBulkDispatch so) ∧
    (commit so ro false dbOk ⟨objs, hooks⟩).txError = none := by
  have hp := planNonBulk_covered so objs h
  simp only [commit, hp, attemptOps_dbOk]
  exact ⟨rfl, rfl⟩

/-- A queue exercising every dispatch case C2 covers. -/
def objsC2 : List TransactionScopeObject :=
  [⟨.RawQuery, .raw ⟨"SELECT 1", [.num 1]⟩, none, none⟩,
   ⟨.EntityCollection, .single entNoSnap, some .Delete, none⟩,
   ⟨.EntityCollection, .single entNoSnap, some .HardDelete, none⟩,
   ⟨.EntityCollection, .single entSnap, some .Update, none⟩,
   ⟨.EntityCollection, .single entNoSnap, some .Update, some ⟨some "id = 1", [("a", .num 2)]⟩⟩,
   ⟨.EntityCollection, .single entNoSnap, some .Update, none⟩]

/-- C2 witness: the dispatch table realized on a six-record queue. -/
theorem claim2_witness :
    (commit (some 4) none false dbOk ⟨objsC2, []⟩).ops =
      objsC2.flatMap (specNonBulkDispatch (some 4)) ∧
    (commit (some 4) none false dbOk ⟨objsC2, []⟩).txError = none :=
  claim2_nonbulk_dispatch_refines_spec (some 4) none objsC2 [] (by decide)

/-- A scope holding one staged raw query. -/
def scopeC3 : TransactionScope :=
  TransactionScope.addRawQuery "SELECT 1" [.str "p"] TransactionScope.empty

/-- C3: in bulk mode the queries executed for staged raw queries carry
`undefined` text and parameters — the staged text `"SELECT 1"` is never
executed, because the raw-query list holds the wrapper objects (cast to
`IRawQuery`), which have no `query`/`parameters` properties. -/
theorem claim3_bulk_raw_query_text_lost :
    (commit none none true dbOk scopeC3).txError = none ∧
    (commit none none true dbOk scopeC3).ops =
      [.save (.mixed []) none, .query none none] ∧
    (∀ op ∈ (commit none none true dbOk scopeC3).ops,
      op ≠ DbOp.query (some "SELECT 1") (some [.str "p"])) := by decide

/-- An empty queue with one hook whose listener returns a rejected promise. -/
def scopeC4 : TransactionScope := ⟨[], [⟨.AfterCommit, 0, .reject 7⟩]⟩

/-- C4: a hook whose listener rejects is invoked, but its failure is swallowed
by `Promise.allSettled` — `commit` resolves normally, nothing is logged and
nothing is re-raised, contradicting the claim that a hook failure is logged
and re-raised to the caller. (The registry is still cleared.) -/
theorem claim4_rejected_hook_error_swallowed :
    (commit none none false dbOk scopeC4).outcome = .ok () ∧
    (commit none none false dbOk scopeC4).executedHooks = [0] ∧
    (commit none none false dbOk scopeC4).logs = [] ∧
    (commit none none false dbOk scopeC4).finalScope.hooks = [] := by decide

/-- C8: during non-bulk replay, an Update record whose target is neither an
entity instance nor an array logs the invariant message and throws; the
transaction aborts with that error, the queue is cleared, no hook runs, and
records after the bad one are never dispatched (the issued calls are exactly
the error-free prefix's). -/
theorem claim8_update_invalid_target_fatal
    (so : Option SaveOptions) (ro : Option RemoveOptions)
    (pre post : List TransactionScopeObject) (q : IRawQuery)
    (ty : TransactionCollectionEnum) (opts : Option TransactionScopeOptions)
    (hooks : List HooksMetaData)
    (hty : ty = .EntityCollection ∨ ty = .BulkEntityCollnection)
    (hpre : (planNonBulk so pre).err = none) :
    (commit so ro false dbOk
        ⟨pre ++ ⟨ty, .raw q, some .Update, opts⟩ :: post, hooks⟩).txError =
      some (.jsError "Entity is not an instance of entity base") ∧
    (commit so ro false dbOk
        ⟨pre ++ ⟨ty, .raw q, some .Update, opts⟩ :: post, hooks⟩).outcome =
      Except.error (.jsError "Entity is not an instance of entity base") ∧
    (commit so ro false dbOk
        ⟨pre ++ ⟨ty, .raw q, some .Update, opts⟩ :: post, hooks⟩).executedHooks = [] ∧
    (commit so ro false dbOk
        ⟨pre ++ ⟨ty, .raw q, some .Update, opts⟩ :: post, hooks⟩).finalScope.transactionObjects
      = [] ∧
    (commit so ro false dbOk
        ⟨pre ++ ⟨ty, .raw q, some .Update, opts⟩ :: post, hooks⟩).ops =
      (planNonBulk so pre).ops ∧
    "ENTITY NOT AN INSTANCE OF ENTITY BASE" ∈
      (commit so ro false dbOk
        ⟨pre ++ ⟨ty, .raw q, some .Update, opts⟩ :: post, hooks⟩).logs := by
  have hbad : planRecord so ⟨ty, .raw q, some .Update, opts⟩ =
      ⟨[], ["ENTITY NOT AN INSTANCE OF ENTITY BASE"],
        some (.jsError "Entity is not an instance of entity base")⟩ := by
    rcases hty with h | h <;> subst h <;> rfl
  have htail : planNonBulk so (⟨ty, .raw q, some .Update, opts⟩ :: post) =
      ⟨[], ["ENTITY NOT AN INSTANCE OF ENTITY BASE"],
        some (.jsError "Entity is not an instance of entity base")⟩ := by
    simp [planNonBulk, hbad]
  have hplan : planNonBulk so (pre ++ ⟨ty, .raw q, some .Update, opts⟩ :: post) =
      ⟨(planNonBulk so pre).ops,
       (planNonBulk so pre).logs ++ ["ENTITY NOT AN INSTANCE OF ENTITY BASE"],
       some (.jsError "Entity is not an instance of entity base")⟩ := by
    rw [planNonBulk_append so pre _ hpre, htail]
    simp
  simp only [commit, hplan, attemptOps_dbOk]
  refine ⟨rfl, rfl, rfl, rfl, rfl, ?_⟩
  exact List.mem_append_right _ (by simp)

/-- C8 witness: a queue holding only the malformed update record. -/
theorem claim8_witness :
    (commit none none false dbOk
        ⟨[] ++ ⟨.EntityCollection, .raw ⟨"q", []⟩, some .Update, none⟩ :: [], []⟩).txError =
      some (.jsError "Entity is not an instance of entity base") ∧
    (commit none none false dbOk
        ⟨[] ++ ⟨.EntityCollection, .raw ⟨"q", []⟩, some .Update, none⟩ :: [], []⟩).outcome =
      Except.error (.jsError "Entity is not an instance of entity base") ∧
    (commit none none false dbOk
        ⟨[] ++ ⟨.EntityCollection, .raw ⟨"q", []⟩, some .Update, none⟩ :: [], []⟩).executedHooks
      = [] ∧
    (commit none none false dbOk
        ⟨[] ++ ⟨.EntityCollection, .raw ⟨"q", []⟩, some .Update, none⟩ :: [],
          []⟩).finalScope.transactionObjects = [] ∧
    (commit none none false dbOk
        ⟨[] ++ ⟨.EntityCollection, .raw ⟨"q", []⟩, some .Update, none⟩ :: [], []⟩).ops =
      (planNonBulk none ([] : List TransactionScopeObject)).ops ∧
    "ENTITY NOT AN INSTANCE OF ENTITY BASE" ∈
      (commit none none false dbOk
        ⟨[] ++ ⟨.EntityCollection, .raw ⟨"q", []⟩, some .Update, none⟩ :: [], []⟩).logs :=
  claim8_update_invalid_target_fatal none none [] [] ⟨"q", []⟩ .EntityCollection none []
    (Or.inl rfl) rfl

/-- C9: a failed commit leaves the hook registry intact — AfterCommit hooks
registered before the failing commit remain registered, and the next
successful commit on the same instance (here: its empty-queue state, with a
failure-free datastore and no synchronously-throwing listener) invokes every
one of them and then empties the registry. -/
theorem claim9_failed_commit_keeps_hooks
    (so so₂ : Option SaveOptions) (ro ro₂ : Option RemoveOptions) (bulk : Bool)
    (db : DbEngine) (s : TransactionScope) (e : JsError)
    (he : (commit so ro bulk db s).txError = some e)
    (hbeh : ∀ x ∈ s.hooks, ∀ c, x.beh ≠ ListenerBeh.syncThrow c) :
    (commit so ro bulk db s).finalScope.hooks = s.hooks ∧
    (commit so₂ ro₂ false dbOk ((commit so ro bulk db s).finalScope)).executedHooks =
      s.hooks.map (fun x => x.id) ∧
    (commit so₂ ro₂ false dbOk ((commit so ro bulk db s).finalScope)).outcome = .ok () ∧
    (commit so₂ ro₂ false dbOk ((commit so ro bulk db s).finalScope)).finalScope.hooks
      = [] := by
  have hfs := (commit_error_case so ro bulk db s e he).2.2
  rw [hfs]
  have hsecond : commit so₂ ro₂ false dbOk ⟨[], s.hooks⟩ =
      { ops := [], logs := [], txError := none, outcome := .ok (),
        executedHooks := s.hooks.map (fun x => x.id), finalScope := ⟨[], []⟩ } := by
    simp [commit, planNonBulk, attemptOps,
      processAfterCommitHooks_no_syncThrow s.hooks hbeh]
  rw [hsecond]
  exact ⟨rfl, rfl, rfl, rfl⟩

/-- A scope with a staged raw query and two well-behaved hooks. -/
def scopeC9 : TransactionScope :=
  ⟨[⟨.RawQuery, .raw ⟨"Q", []⟩, none, none⟩],
   [⟨.AfterCommit, 5, .resolve⟩, ⟨.AfterCommit, 6, .reject 2⟩]⟩

/-- C9 witness: hooks survive a datastore failure and run on the next
successful commit. -/
theorem claim9_witness :
    (commit none none false dbFail0 scopeC9).finalScope.hooks = scopeC9.hooks ∧
    (commit none none false dbOk
        ((commit none none false dbFail0 scopeC9).finalScope)).executedHooks =
      scopeC9.hooks.map (fun x => x.id) ∧
    (commit none none false dbOk
        ((commit none none false dbFail0 scopeC9).finalScope)).outcome = .ok () ∧
    (commit none none false dbOk
        ((commit none none false dbFail0 scopeC9).finalScope)).finalScope.hooks = [] :=
  claim9_failed_commit_keeps_hooks none none none none false dbFail0 scopeC9
    (.dbFailure 9) (by decide)
    (by
      intro x hx c
      simp only [scopeC9, List.mem_cons, List.not_mem_nil, or_false] at hx
      rcases hx with h | h <;> subst h <;> simp)

/-- C10: the `removeOptions` parameter of `commit` never influences the
result — and both the Delete (softRemove) and HardDelete (remove) calls are
issued with the `saveOptions` argument. -/
theorem claim10_remove_options_unused
    (so : Option SaveOptions) (ro ro₂ : Option RemoveOptions) (bulk : Bool)
    (db : DbEngine) (s : TransactionScope) :
    commit so ro bulk db s = commit so ro₂ bulk db s ∧
    (∀ (e e' : EntityBase) (hooks : List HooksMetaData),
      (commit so ro false dbOk
        ⟨[⟨.EntityCollection, .single e, some .Delete, none⟩,
          ⟨.EntityCollection, .single e', some .HardDelete, none⟩], hooks⟩).ops =
      [.softRemove (.single e) so, .remove (.single e') so]) := by
  refine ⟨rfl, ?_⟩
  intro e e' hooks
  simp [commit, planNonBulk, planRecord, attemptOps, dbOk]

end TxScope
